import Mathlib

/-!
Shallow embedding of the `ans` (account name service) pallet from
`src/pallets/ans/src/lib.rs`: a name-reservation registry with a paid
reservation path, and proofs of the specified properties.

Names are byte sequences (`List Nat`), accounts and balances are `Nat`.
The pallet's storage (`AnsOf`, `ReservationFee`, `ReservationAccount`),
the host's balance map, and the emitted event log are gathered in a
`State` record; each dispatchable is a function `State → Except Error State`,
reflecting FRAME's transactional dispatch: on an error the whole call rolls
back, so only the `.ok` state carries any mutation.
-/

abbrev Account : Type := Nat
abbrev Name : Type := List Nat
abbrev Balance : Type := Nat

/-- The pallet `Config` constants `MinLength` and `MaxLength`. -/
structure Config where
  minLength : Nat
  maxLength : Nat
deriving DecidableEq, Repr

/-- The pallet's `Error` enum, extended by one variant `TransferFailed`
for the host-level error propagated by `T::Currency::transfer(..)?`. -/
inductive Error where
  | TooShort
  | TooLong
  | AlreadyReserved
  | NotFound
  | NotOwner
  | ReserveAccountNotConfigured
  | TransferFailed
deriving DecidableEq, Repr

/-- The pallet's `Event` enum: `Reserved { who, name }` and
`Transferred { from, to, name }`. -/
inductive Event where
  | Reserved (who : Account) (name : Name)
  | Transferred (from_ : Account) (to_ : Account) (name : Name)
deriving DecidableEq, Repr

/-- Lookup in the `AnsOf` storage map (`StorageMap` keyed by the bounded
name), modelled as an association list: first entry with the given key. -/
def ansGet : List (Name × Account) → Name → Option Account
  | [], _ => none
  | p :: rest, n => if p.1 = n then some p.2 else ansGet rest n

/-- `AnsOf::contains_key`: a key is present iff lookup succeeds. -/
def ansContains (m : List (Name × Account)) (n : Name) : Bool :=
  (ansGet m n).isSome

/-- `AnsOf::insert`: insert-or-overwrite of the entry for a key. -/
def ansInsert : List (Name × Account) → Name → Account → List (Name × Account)
  | [], n, a => [(n, a)]
  | p :: rest, n, a => if p.1 = n then (n, a) :: rest else p :: ansInsert rest n a

/-- Number of entries stored under a given key (used to state the
"exactly one Registration" property). -/
def countKey (m : List (Name × Account)) (n : Name) : Nat :=
  (m.filter fun p => decide (p.1 = n)).length

/-- The host's value-transfer primitive
`Currency::transfer(src, dst, amount, AllowDeath)`: succeeds iff the
sender's balance covers the amount (the sender may be drained to zero),
debiting the source and crediting the destination. -/
def currencyTransfer (bal : Account → Balance) (src dst : Account)
    (amount : Balance) : Option (Account → Balance) :=
  if amount ≤ bal src then
    some (fun a =>
      let afterDebit := fun b => if b = src then bal b - amount else bal b
      if a = dst then afterDebit a + amount else afterDebit a)
  else none

/-- The full state a dispatchable reads and writes: the three storage
items of the pallet, the host's balances, and the event deposit log. -/
structure State where
  ansOf : List (Name × Account)
  reservationFee : Balance
  reservationAccount : Option Account
  balances : Account → Balance
  events : List Event

/-- The pallet's `GenesisConfig`. -/
structure GenesisConfig where
  reservation_fee : Balance
  reservation_account : Option Account

/-- `BuildGenesisConfig::build`: always writes `ReservationFee`, and
writes `ReservationAccount` only when the genesis value is `Some`. -/
def genesisBuild (g : GenesisConfig) (st : State) : State :=
  let st1 := { st with reservationFee := g.reservation_fee }
  match g.reservation_account with
  | some account => { st1 with reservationAccount := some account }
  | none => st1

/-- `Pallet::reserve(origin, name)`, after `ensure_signed` has produced
`sender`.  Mirrors the source line by line:
1. `BoundedVec::try_into` fails with `TooLong` when the name exceeds
   `MaxLength`;
2. `ensure!(len >= MinLength, TooShort)`;
3. `ensure!(!AnsOf::contains_key(name), AlreadyReserved)`;
4. unset `ReservationAccount` fails with `ReserveAccountNotConfigured`;
5. `Currency::transfer(sender, reservation_account, fee, AllowDeath)?`;
6. insert `{name → sender}` and deposit `Reserved { who: sender, name }`. -/
def reserve (cfg : Config) (st : State) (sender : Account) (name : Name) :
    Except Error State :=
  if name.length > cfg.maxLength then .error .TooLong
  else if name.length < cfg.minLength then .error .TooShort
  else if ansContains st.ansOf name then .error .AlreadyReserved
  else
    match st.reservationAccount with
    | none => .error .ReserveAccountNotConfigured
    | some reservation_account =>
      match currencyTransfer st.balances sender reservation_account
          st.reservationFee with
      | none => .error .TransferFailed
      | some newBalances =>
        .ok { st with
          balances := newBalances
          ansOf := ansInsert st.ansOf name sender
          events := st.events ++ [Event.Reserved sender name] }

/-- `Pallet::transfer_to(origin, name, to)`, after `ensure_signed` has
produced `sender`.  Mirrors the source:
1. `BoundedVec::try_into` fails with `TooLong` when the name exceeds
   `MaxLength` (no minimum-length check is performed);
2. `AnsOf::get(name)` absent fails with `NotFound`;
3. `ensure!(sender == current_owner, NotOwner)`;
4. insert `{name → to}` and deposit `Transferred { from: sender, to, name }`. -/
def transfer_to (cfg : Config) (st : State) (sender : Account) (name : Name)
    (to_ : Account) : Except Error State :=
  if name.length > cfg.maxLength then .error .TooLong
  else
    match ansGet st.ansOf name with
    | some current_owner =>
      if sender = current_owner then
        .ok { st with
          ansOf := ansInsert st.ansOf name to_
          events := st.events ++ [Event.Transferred sender to_ name] }
      else .error .NotOwner
    | none => .error .NotFound

/-- Invariant I1 of the spec: every stored Registration's name is inside
the configured length bounds (the upper bound is structural, from the
`BoundedVec` key type; the lower bound is enforced by `reserve`). -/
abbrev State.wf (cfg : Config) (st : State) : Prop :=
  ∀ p ∈ st.ansOf, cfg.minLength ≤ p.1.length ∧ p.1.length ≤ cfg.maxLength

/-! ### Basic lemmas about the registry map -/

theorem ansGet_mem {m : List (Name × Account)} {n : Name} {a : Account}
    (h : ansGet m n = some a) : (n, a) ∈ m := by
  induction m with
  | nil => simp [ansGet] at h
  | cons p rest ih =>
    by_cases hp : p.1 = n
    · rw [ansGet, if_pos hp] at h
      cases h
      cases p
      cases hp
      exact List.mem_cons_self _ _
    · rw [ansGet, if_neg hp] at h
      exact List.mem_cons_of_mem _ (ih h)

theorem ansGet_insert_self (m : List (Name × Account)) (n : Name)
    (a : Account) : ansGet (ansInsert m n a) n = some a := by
  induction m with
  | nil => simp [ansInsert, ansGet]
  | cons p rest ih =>
    by_cases hp : p.1 = n
    · simp [ansInsert, hp, ansGet]
    · simp [ansInsert, hp, ansGet, ih]

theorem ansGet_insert_other (m : List (Name × Account)) {n n' : Name}
    (a : Account) (hne : n' ≠ n) :
    ansGet (ansInsert m n a) n' = ansGet m n' := by
  induction m with
  | nil =>
    show ansGet [(n, a)] n' = none
    rw [ansGet, if_neg (fun h => hne h.symm)]
    rfl
  | cons p rest ih =>
    by_cases hp : p.1 = n
    · rw [ansInsert, if_pos hp, ansGet, if_neg (fun h => hne h.symm),
        ansGet, if_neg (fun h : p.1 = n' => hne (hp ▸ h).symm)]
    · rw [ansInsert, if_neg hp, ansGet, ansGet, ih]

theorem countKey_eq_zero_of_get_none {m : List (Name × Account)} {n : Name}
    (h : ansGet m n = none) : countKey m n = 0 := by
  induction m with
  | nil => simp [countKey]
  | cons p rest ih =>
    by_cases hp : p.1 = n
    · simp [ansGet, hp] at h
    · simp only [ansGet, hp, if_neg, if_false] at h
      simp only [countKey, List.filter] at ih ⊢
      simp [hp, ih h]

theorem countKey_insert_of_get_none {m : List (Name × Account)} {n : Name}
    (a : Account) (h : ansGet m n = none) :
    countKey (ansInsert m n a) n = 1 := by
  induction m with
  | nil => simp [ansInsert, countKey, List.filter]
  | cons p rest ih =>
    by_cases hp : p.1 = n
    · simp [ansGet, hp] at h
    · simp only [ansGet, hp, if_neg, if_false] at h
      simp only [ansInsert, hp, if_neg, if_false]
      simp only [countKey, List.filter, hp, decide_eq_true_eq] at ih ⊢
      simp only [if_neg hp] at *
      · exact ih h

theorem ansContains_eq_false_iff (m : List (Name × Account)) (n : Name) :
    ansContains m n = false ↔ ansGet m n = none := by
  unfold ansContains
  cases ansGet m n <;> simp

/-! ### Inversion lemmas for the two dispatchables -/

theorem reserve_ok_inv {cfg : Config} {st : State} {sender : Account}
    {name : Name} {st' : State}
    (h : reserve cfg st sender name = .ok st') :
    name.length ≤ cfg.maxLength ∧ cfg.minLength ≤ name.length ∧
    ansContains st.ansOf name = false ∧
    ∃ acct, st.reservationAccount = some acct ∧
    ∃ bal', currencyTransfer st.balances sender acct st.reservationFee
        = some bal' ∧
    st' = { st with
      balances := bal'
      ansOf := ansInsert st.ansOf name sender
      events := st.events ++ [Event.Reserved sender name] } := by
  unfold reserve at h
  split at h
  · exact absurd h (by simp)
  rename_i hlong
  split at h
  · exact absurd h (by simp)
  rename_i hshort
  split at h
  · exact absurd h (by simp)
  rename_i hfree
  split at h
  · exact absurd h (by simp)
  rename_i acct hacct
  split at h
  · exact absurd h (by simp)
  rename_i bal' hbal
  refine ⟨by omega, by omega, by simpa using hfree, acct, hacct,
    bal', hbal, ?_⟩
  cases h
  rfl

theorem transfer_to_ok_inv {cfg : Config} {st : State} {sender : Account}
    {name : Name} {to_ : Account} {st' : State}
    (h : transfer_to cfg st sender name to_ = .ok st') :
    name.length ≤ cfg.maxLength ∧
    ansGet st.ansOf name = some sender ∧
    st' = { st with
      ansOf := ansInsert st.ansOf name to_
      events := st.events ++ [Event.Transferred sender to_ name] } := by
  unfold transfer_to at h
  split at h
  · exact absurd h (by simp)
  · rename_i hlong
    split at h
    · rename_i current_owner hown
      split at h
      · rename_i hsend
        cases h
        exact ⟨by omega, hsend ▸ hown, rfl⟩
      · exact absurd h (by simp)
    · exact absurd h (by simp)

/-! ### Lemmas about the value-transfer primitive -/

theorem currencyTransfer_le {bal : Account → Balance} {src dst : Account}
    {amount : Balance} {bal' : Account → Balance}
    (h : currencyTransfer bal src dst amount = some bal') :
    amount ≤ bal src := by
  unfold currencyTransfer at h
  split at h
  · assumption
  · exact absurd h (by simp)

theorem currencyTransfer_src {bal : Account → Balance} {src dst : Account}
    {amount : Balance} {bal' : Account → Balance}
    (h : currencyTransfer bal src dst amount = some bal')
    (hne : src ≠ dst) : bal' src = bal src - amount := by
  unfold currencyTransfer at h
  split at h
  · cases h
    simp [hne]
  · exact absurd h (by simp)

theorem currencyTransfer_dst {bal : Account → Balance} {src dst : Account}
    {amount : Balance} {bal' : Account → Balance}
    (h : currencyTransfer bal src dst amount = some bal')
    (hne : src ≠ dst) : bal' dst = bal dst + amount := by
  unfold currencyTransfer at h
  split at h
  · cases h
    have h2 : dst ≠ src := Ne.symm hne
    simp [h2]
  · exact absurd h (by simp)

theorem currencyTransfer_other {bal : Account → Balance} {src dst : Account}
    {amount : Balance} {bal' : Account → Balance}
    (h : currencyTransfer bal src dst amount = some bal')
    {a : Account} (h1 : a ≠ src) (h2 : a ≠ dst) : bal' a = bal a := by
  unfold currencyTransfer at h
  split at h
  · cases h
    simp [h1, h2]
  · exact absurd h (by simp)

/-! ### Forward evaluation lemmas for the success paths -/

theorem reserve_eq_ok {cfg : Config} {st : State} {sender : Account}
    {name : Name} {acct : Account}
    (hmin : cfg.minLength ≤ name.length) (hmax : name.length ≤ cfg.maxLength)
    (hfree : ansGet st.ansOf name = none)
    (hacct : st.reservationAccount = some acct)
    (hbal : st.reservationFee ≤ st.balances sender) :
    ∃ bal', currencyTransfer st.balances sender acct st.reservationFee
        = some bal' ∧
      reserve cfg st sender name = Except.ok { st with
        balances := bal'
        ansOf := ansInsert st.ansOf name sender
        events := st.events ++ [Event.Reserved sender name] } := by
  have hc : ansContains st.ansOf name = false :=
    (ansContains_eq_false_iff _ _).2 hfree
  have htr : ∃ bal', currencyTransfer st.balances sender acct
      st.reservationFee = some bal' := by
    unfold currencyTransfer
    exact ⟨_, if_pos hbal⟩
  obtain ⟨bal', hbal'⟩ := htr
  refine ⟨bal', hbal', ?_⟩
  have h1 : ¬ name.length > cfg.maxLength := by omega
  have h2 : ¬ name.length < cfg.minLength := by omega
  simp [reserve, h1, h2, hc, hacct, hbal']

theorem transfer_to_eq_ok {cfg : Config} {st : State} {sender : Account}
    {name : Name} {to_ : Account}
    (hmax : name.length ≤ cfg.maxLength)
    (hown : ansGet st.ansOf name = some sender) :
    transfer_to cfg st sender name to_ = Except.ok { st with
      ansOf := ansInsert st.ansOf name to_
      events := st.events ++ [Event.Transferred sender to_ name] } := by
  have h1 : ¬ name.length > cfg.maxLength := by omega
  simp [transfer_to, h1, hown]

/-! ### Preservation of the length invariant -/

theorem mem_ansInsert {m : List (Name × Account)} {n : Name} {a : Account}
    {p : Name × Account} (hp : p ∈ ansInsert m n a) :
    p = (n, a) ∨ p ∈ m := by
  induction m with
  | nil => simpa [ansInsert] using hp
  | cons q rest ih =>
    by_cases hq : q.1 = n
    · rw [ansInsert, if_pos hq] at hp
      rcases List.mem_cons.1 hp with h | h
      · exact Or.inl h
      · exact Or.inr (List.mem_cons_of_mem _ h)
    · rw [ansInsert, if_neg hq] at hp
      rcases List.mem_cons.1 hp with h | h
      · exact Or.inr (h ▸ List.mem_cons_self _ _)
      · rcases ih h with h' | h'
        · exact Or.inl h'
        · exact Or.inr (List.mem_cons_of_mem _ h')

theorem reserve_preserves_wf {cfg : Config} {st : State} {sender : Account}
    {name : Name} {st' : State} (hwf : State.wf cfg st)
    (h : reserve cfg st sender name = Except.ok st') : State.wf cfg st' := by
  obtain ⟨hmax, hmin, _, _, _, _, _, rfl⟩ := reserve_ok_inv h
  intro p hp
  rcases mem_ansInsert hp with h' | h'
  · subst h'
    exact ⟨hmin, hmax⟩
  · exact hwf _ h'

theorem transfer_to_preserves_wf {cfg : Config} {st : State}
    {sender : Account} {name : Name} {to_ : Account} {st' : State}
    (hwf : State.wf cfg st)
    (h : transfer_to cfg st sender name to_ = Except.ok st') :
    State.wf cfg st' := by
  obtain ⟨hmax, hown, rfl⟩ := transfer_to_ok_inv h
  obtain ⟨hmin', hmax'⟩ := hwf _ (ansGet_mem hown)
  intro p hp
  rcases mem_ansInsert hp with h' | h'
  · subst h'
    exact ⟨hmin', hmax'⟩
  · exact hwf _ h'

/-! ### Concrete configuration and states used by the closed instances -/

/-- A concrete configuration: `MinLength = 3`, `MaxLength = 8`. -/
def cfg0 : Config := { minLength := 3, maxLength := 8 }

/-- A concrete state: name `[1,2,3]` owned by account `5`, fee `10`,
fee-collection account `9`, every account but `9` holding `100`. -/
def stA : State :=
  { ansOf := [([1, 2, 3], 5)]
    reservationFee := 10
    reservationAccount := some 9
    balances := fun a => if a = 9 then 7 else 100
    events := [] }

/-- `stA` with `ReservationAccount` unset. -/
def stNoAcct : State :=
  { ansOf := [([1, 2, 3], 5)]
    reservationFee := 10
    reservationAccount := none
    balances := fun a => if a = 9 then 7 else 100
    events := [] }

/-- The state after account `5` transfers name `[1,2,3]` to account `6`
in `stA`. -/
def stA_after : State :=
  { stA with
    ansOf := ansInsert stA.ansOf [1, 2, 3] 6
    events := [Event.Transferred 5 6 [1, 2, 3]] }

/-- A concrete state where the caller `2` cannot afford the fee. -/
def stPoor : State :=
  { ansOf := []
    reservationFee := 10
    reservationAccount := some 9
    balances := fun _ => 3
    events := [] }

/-! ### The claims -/

/-- C1: with `ReservationAccount` configured, a successful `reserve`
debits exactly `ReservationFee` from the caller and credits it to the
reservation account (all other balances untouched), the fee being
covered by the caller's balance; and when the caller's balance is below
the fee the call fails, so (dispatch being transactional) no
Registration is created and no fee is moved. -/
theorem reserve_fee_debit_credit_and_insufficient
    (cfg : Config) (st : State) (sender : Account) (name : Name)
    (acct : Account) (hacct : st.reservationAccount = some acct) :
    (∀ st', reserve cfg st sender name = Except.ok st' →
      st.reservationFee ≤ st.balances sender ∧
      (sender ≠ acct →
        st'.balances sender = st.balances sender - st.reservationFee ∧
        st'.balances acct = st.balances acct + st.reservationFee) ∧
      (∀ a, a ≠ sender → a ≠ acct → st'.balances a = st.balances a)) ∧
    (st.balances sender < st.reservationFee →
      ∀ st', reserve cfg st sender name ≠ Except.ok st') := by
  constructor
  · intro st' h
    obtain ⟨_, _, _, acct2, hacct2, bal', hbal, rfl⟩ := reserve_ok_inv h
    rw [hacct] at hacct2
    injection hacct2 with he
    subst he
    refine ⟨currencyTransfer_le hbal, ?_, ?_⟩
    · intro hne
      exact ⟨currencyTransfer_src hbal hne, currencyTransfer_dst hbal hne⟩
    · intro a h1 h2
      exact currencyTransfer_other hbal h1 h2
  · intro hlt st' h
    obtain ⟨_, _, _, acct2, hacct2, bal', hbal, _⟩ := reserve_ok_inv h
    have hle := currencyTransfer_le hbal
    exact absurd (lt_of_lt_of_le hlt hle) (lt_irrefl _)

/-- Closed instance of C1 at a concrete state and caller. -/
theorem reserve_fee_debit_credit_instance :
    stA.reservationAccount = some 9 ∧
    ((∀ st', reserve cfg0 stA 2 [4, 4, 4, 4] = Except.ok st' →
      stA.reservationFee ≤ stA.balances 2 ∧
      ((2 : Account) ≠ 9 →
        st'.balances 2 = stA.balances 2 - stA.reservationFee ∧
        st'.balances 9 = stA.balances 9 + stA.reservationFee) ∧
      (∀ a, a ≠ 2 → a ≠ 9 → st'.balances a = stA.balances a)) ∧
    (stA.balances 2 < stA.reservationFee →
      ∀ st', reserve cfg0 stA 2 [4, 4, 4, 4] ≠ Except.ok st')) :=
  ⟨rfl, reserve_fee_debit_credit_and_insufficient cfg0 stA 2 [4, 4, 4, 4] 9 rfl⟩

/-- C2: reserving a free name of valid length, with the reservation
account configured and the caller able to pay the fee, succeeds, stores
exactly one Registration `{name → caller}`, and emits
`Reserved { who: caller, name }`. -/
theorem reserve_free_valid_name_succeeds
    (cfg : Config) (st : State) (sender : Account) (name : Name)
    (acct : Account)
    (hmin : cfg.minLength ≤ name.length) (hmax : name.length ≤ cfg.maxLength)
    (hfree : ansGet st.ansOf name = none)
    (hacct : st.reservationAccount = some acct)
    (hbal : st.reservationFee ≤ st.balances sender) :
    ∃ st', reserve cfg st sender name = Except.ok st' ∧
      ansGet st'.ansOf name = some sender ∧
      countKey st'.ansOf name = 1 ∧
      st'.events = st.events ++ [Event.Reserved sender name] := by
  obtain ⟨bal', _, hok⟩ := reserve_eq_ok hmin hmax hfree hacct hbal
  exact ⟨_, hok, ansGet_insert_self st.ansOf name sender,
    countKey_insert_of_get_none sender hfree, rfl⟩

/-- Closed instance of C2 at a concrete state and caller. -/
theorem reserve_free_valid_name_succeeds_instance :
    cfg0.minLength ≤ ([4, 4, 4, 4] : Name).length ∧
    ([4, 4, 4, 4] : Name).length ≤ cfg0.maxLength ∧
    ansGet stA.ansOf [4, 4, 4, 4] = none ∧
    stA.reservationAccount = some 9 ∧
    stA.reservationFee ≤ stA.balances 2 ∧
    (∃ st', reserve cfg0 stA 2 [4, 4, 4, 4] = Except.ok st' ∧
      ansGet st'.ansOf [4, 4, 4, 4] = some 2 ∧
      countKey st'.ansOf [4, 4, 4, 4] = 1 ∧
      st'.events = stA.events ++ [Event.Reserved 2 [4, 4, 4, 4]]) :=
  ⟨by decide, by decide, by decide, rfl, by decide,
    reserve_free_valid_name_succeeds cfg0 stA 2 [4, 4, 4, 4] 9
      (by decide) (by decide) (by decide) rfl (by decide)⟩

/-- C3 counterexample: with `ReservationAccount` unset, a `reserve` call
whose name exceeds `MaxLength` fails with `TooLong`, not with
`ReserveAccountNotConfigured` — so not *every* call fails with the
latter error. -/
theorem reserve_unset_account_error_counterexample :
    stNoAcct.reservationAccount = none ∧
    reserve cfg0 stNoAcct 2 [7, 7, 7, 7, 7, 7, 7, 7, 7]
      = Except.error Error.TooLong ∧
    Error.TooLong ≠ Error.ReserveAccountNotConfigured :=
  ⟨rfl, rfl, by decide⟩

/-- C3 (amended): with `ReservationAccount` unset, every `reserve` call
fails — so no fee is moved and no Registration is created — and every
call whose name is valid and free fails with
`ReserveAccountNotConfigured`. -/
theorem reserve_unset_account_always_fails
    (cfg : Config) (st : State) (sender : Account) (name : Name)
    (hacct : st.reservationAccount = none) :
    (∀ st', reserve cfg st sender name ≠ Except.ok st') ∧
    (cfg.minLength ≤ name.length → name.length ≤ cfg.maxLength →
      ansGet st.ansOf name = none →
      reserve cfg st sender name
        = Except.error Error.ReserveAccountNotConfigured) := by
  constructor
  · intro st' h
    obtain ⟨_, _, _, acct, hacct2, _⟩ := reserve_ok_inv h
    rw [hacct] at hacct2
    cases hacct2
  · intro hmin hmax hfree
    have hc : ansContains st.ansOf name = false :=
      (ansContains_eq_false_iff _ _).2 hfree
    have h1 : ¬ name.length > cfg.maxLength := by omega
    have h2 : ¬ name.length < cfg.minLength := by omega
    simp [reserve, h1, h2, hc, hacct]

/-- Closed instance of the amended C3 at a concrete state. -/
theorem reserve_unset_account_always_fails_instance :
    stNoAcct.reservationAccount = none ∧
    ((∀ st', reserve cfg0 stNoAcct 2 [4, 4, 4, 4] ≠ Except.ok st') ∧
    (cfg0.minLength ≤ ([4, 4, 4, 4] : Name).length →
      ([4, 4, 4, 4] : Name).length ≤ cfg0.maxLength →
      ansGet stNoAcct.ansOf [4, 4, 4, 4] = none →
      reserve cfg0 stNoAcct 2 [4, 4, 4, 4]
        = Except.error Error.ReserveAccountNotConfigured)) :=
  ⟨rfl, reserve_unset_account_always_fails cfg0 stNoAcct 2 [4, 4, 4, 4] rfl⟩

/-- C4: the current owner can transfer an owned name to any account:
ownership is updated to `to_`, `Transferred { from, to, name }` is
emitted, and afterwards the old owner (when distinct from the new one)
fails with `NotOwner`. -/
theorem transfer_by_owner_then_old_owner_fails
    (cfg : Config) (st : State) (owner : Account) (name : Name)
    (to_ : Account)
    (hwf : State.wf cfg st)
    (hown : ansGet st.ansOf name = some owner) :
    ∃ st', transfer_to cfg st owner name to_ = Except.ok st' ∧
      ansGet st'.ansOf name = some to_ ∧
      st'.events = st.events ++ [Event.Transferred owner to_ name] ∧
      (to_ ≠ owner → ∀ to2, transfer_to cfg st' owner name to2
        = Except.error Error.NotOwner) := by
  obtain ⟨hmin0, hmax0⟩ := hwf _ (ansGet_mem hown)
  have hmin : cfg.minLength ≤ name.length := hmin0
  have hmax : name.length ≤ cfg.maxLength := hmax0
  refine ⟨_, transfer_to_eq_ok hmax hown,
    ansGet_insert_self st.ansOf name to_, rfl, ?_⟩
  intro hne to2
  have h1 : ¬ name.length > cfg.maxLength := by omega
  have hget : ansGet (ansInsert st.ansOf name to_) name = some to_ :=
    ansGet_insert_self _ _ _
  have h2 : owner ≠ to_ := Ne.symm hne
  simp [transfer_to, h1, hget, h2]

/-- Closed instance of C4 at a concrete state. -/
theorem transfer_by_owner_instance :
    State.wf cfg0 stA ∧
    ansGet stA.ansOf [1, 2, 3] = some 5 ∧
    (∃ st', transfer_to cfg0 stA 5 [1, 2, 3] 6 = Except.ok st' ∧
      ansGet st'.ansOf [1, 2, 3] = some 6 ∧
      st'.events = stA.events ++ [Event.Transferred 5 6 [1, 2, 3]] ∧
      ((6 : Account) ≠ 5 → ∀ to2, transfer_to cfg0 st' 5 [1, 2, 3] to2
        = Except.error Error.NotOwner)) :=
  ⟨by decide, by decide,
    transfer_by_owner_then_old_owner_fails cfg0 stA 5 [1, 2, 3] 6
      (by decide) (by decide)⟩

/-- C5: the too-long check precedes the minimum-length check: any
over-long name fails with `TooLong`, and `TooShort` is only ever
returned for names within `MaxLength`. -/
theorem reserve_too_long_precedence
    (cfg : Config) (st : State) (sender : Account) (name : Name) :
    (cfg.maxLength < name.length →
      reserve cfg st sender name = Except.error Error.TooLong) ∧
    (reserve cfg st sender name = Except.error Error.TooShort →
      name.length ≤ cfg.maxLength) := by
  constructor
  · intro h
    unfold reserve
    rw [if_pos h]
  · intro h
    by_contra hlen
    unfold reserve at h
    rw [if_pos (by omega : name.length > cfg.maxLength)] at h
    simp at h

/-- Closed instance of C5: an over-long name that is also shorter than
nothing cannot be, so take one that is over-long; it reports `TooLong`. -/
theorem reserve_too_long_precedence_instance :
    cfg0.maxLength < ([9, 9, 9, 9, 9, 9, 9, 9, 9] : Name).length ∧
    reserve cfg0 stA 2 [9, 9, 9, 9, 9, 9, 9, 9, 9]
      = Except.error Error.TooLong :=
  ⟨by decide,
    (reserve_too_long_precedence cfg0 stA 2 [9, 9, 9, 9, 9, 9, 9, 9, 9]).1
      (by decide)⟩

/-- C6: a name shorter than `MinLength` (under a coherent configuration
`MinLength ≤ MaxLength`) makes `reserve` fail with `TooShort` for every
caller, so the registry is unchanged. -/
theorem reserve_too_short_fails
    (cfg : Config) (st : State) (sender : Account) (name : Name)
    (hcfg : cfg.minLength ≤ cfg.maxLength)
    (hshort : name.length < cfg.minLength) :
    reserve cfg st sender name = Except.error Error.TooShort ∧
    ∀ st', reserve cfg st sender name ≠ Except.ok st' := by
  have h1 : ¬ name.length > cfg.maxLength := by omega
  have heq : reserve cfg st sender name = Except.error Error.TooShort := by
    unfold reserve
    rw [if_neg h1, if_pos hshort]
  refine ⟨heq, fun st' h => ?_⟩
  rw [heq] at h
  cases h

/-- Closed instance of C6 at a concrete state. -/
theorem reserve_too_short_fails_instance :
    cfg0.minLength ≤ cfg0.maxLength ∧
    ([1] : Name).length < cfg0.minLength ∧
    (reserve cfg0 stA 2 [1] = Except.error Error.TooShort ∧
    ∀ st', reserve cfg0 stA 2 [1] ≠ Except.ok st') :=
  ⟨by decide, by decide,
    reserve_too_short_fails cfg0 stA 2 [1] (by decide) (by decide)⟩

/-- C7: reserving a name that already has a Registration fails with
`AlreadyReserved` for every caller, so no fee is moved and the existing
Registration is unchanged. -/
theorem reserve_already_reserved_fails
    (cfg : Config) (st : State) (sender : Account) (name : Name)
    (owner : Account)
    (hwf : State.wf cfg st)
    (hres : ansGet st.ansOf name = some owner) :
    reserve cfg st sender name = Except.error Error.AlreadyReserved ∧
    ∀ st', reserve cfg st sender name ≠ Except.ok st' := by
  obtain ⟨hmin0, hmax0⟩ := hwf _ (ansGet_mem hres)
  have hmin : cfg.minLength ≤ name.length := hmin0
  have hmax : name.length ≤ cfg.maxLength := hmax0
  have hc : ansContains st.ansOf name = true := by
    rw [ansContains, hres]
    rfl
  have heq : reserve cfg st sender name
      = Except.error Error.AlreadyReserved := by
    unfold reserve
    rw [if_neg (by omega), if_neg (by omega), if_pos hc]
  refine ⟨heq, fun st' h => ?_⟩
  rw [heq] at h
  cases h

/-- Closed instance of C7: the current owner itself cannot re-reserve. -/
theorem reserve_already_reserved_fails_instance :
    State.wf cfg0 stA ∧
    ansGet stA.ansOf [1, 2, 3] = some 5 ∧
    (reserve cfg0 stA 5 [1, 2, 3] = Except.error Error.AlreadyReserved ∧
    ∀ st', reserve cfg0 stA 5 [1, 2, 3] ≠ Except.ok st') :=
  ⟨by decide, by decide,
    reserve_already_reserved_fails cfg0 stA 5 [1, 2, 3] 5
      (by decide) (by decide)⟩

/-- C8: a Registration, once present, survives every subsequent
successful `reserve` or `transfer_to`; its owner changes only through a
`transfer_to` on that very name whose caller is the current owner, and
then to the designated recipient. -/
theorem registration_never_freed_and_owner_gated
    (cfg : Config) (st : State) (n : Name) (o : Account)
    (h : ansGet st.ansOf n = some o) :
    (∀ sender name st', reserve cfg st sender name = Except.ok st' →
      ansGet st'.ansOf n = some o) ∧
    (∀ sender name to_ st',
      transfer_to cfg st sender name to_ = Except.ok st' →
      (name = n → sender = o ∧ ansGet st'.ansOf n = some to_) ∧
      (name ≠ n → ansGet st'.ansOf n = some o)) := by
  constructor
  · intro sender name st' hr
    obtain ⟨_, _, hfree, _, _, _, _, rfl⟩ := reserve_ok_inv hr
    have hnone := (ansContains_eq_false_iff _ _).1 hfree
    have hne : n ≠ name := by
      intro he
      rw [he, hnone] at h
      cases h
    show ansGet (ansInsert st.ansOf name sender) n = some o
    rw [ansGet_insert_other _ _ hne, h]
  · intro sender name to_ st' ht
    obtain ⟨_, hown, rfl⟩ := transfer_to_ok_inv ht
    constructor
    · intro he
      subst he
      rw [h] at hown
      injection hown with he2
      subst he2
      refine ⟨rfl, ?_⟩
      show ansGet (ansInsert st.ansOf name to_) name = some to_
      exact ansGet_insert_self _ _ _
    · intro hne
      show ansGet (ansInsert st.ansOf name to_) n = some o
      rw [ansGet_insert_other _ _ (Ne.symm hne), h]

/-- Closed instance of C8 at a concrete state. -/
theorem registration_never_freed_instance :
    ansGet stA.ansOf [1, 2, 3] = some 5 ∧
    ((∀ sender name st', reserve cfg0 stA sender name = Except.ok st' →
      ansGet st'.ansOf [1, 2, 3] = some 5) ∧
    (∀ sender name to_ st',
      transfer_to cfg0 stA sender name to_ = Except.ok st' →
      (name = [1, 2, 3] → sender = 5 ∧ ansGet st'.ansOf [1, 2, 3] = some to_) ∧
      (name ≠ [1, 2, 3] → ansGet st'.ansOf [1, 2, 3] = some 5))) :=
  ⟨by decide,
    registration_never_freed_and_owner_gated cfg0 stA [1, 2, 3] 5 (by decide)⟩

/-- C9: neither dispatchable ever changes `ReservationFee` or
`ReservationAccount`: every successful call leaves both exactly as they
were (failed calls return an error and mutate nothing). -/
theorem config_immutable_under_ops (cfg : Config) (st : State) :
    (∀ sender name st', reserve cfg st sender name = Except.ok st' →
      st'.reservationFee = st.reservationFee ∧
      st'.reservationAccount = st.reservationAccount) ∧
    (∀ sender name to_ st',
      transfer_to cfg st sender name to_ = Except.ok st' →
      st'.reservationFee = st.reservationFee ∧
      st'.reservationAccount = st.reservationAccount) := by
  constructor
  · intro sender name st' h
    obtain ⟨_, _, _, _, _, _, _, rfl⟩ := reserve_ok_inv h
    exact ⟨rfl, rfl⟩
  · intro sender name to_ st' h
    obtain ⟨_, _, rfl⟩ := transfer_to_ok_inv h
    exact ⟨rfl, rfl⟩

/-- Closed instance of C9: a concrete successful transfer leaves the fee
configuration untouched. -/
theorem config_immutable_instance :
    transfer_to cfg0 stA 5 [1, 2, 3] 6 = Except.ok stA_after ∧
    (stA_after.reservationFee = stA.reservationFee ∧
    stA_after.reservationAccount = stA.reservationAccount) :=
  ⟨rfl, (config_immutable_under_ops cfg0 stA).2 5 [1, 2, 3] 6 stA_after rfl⟩

/-- C10: `transfer_to` has no minimum-length check and never returns
`TooShort`; on a state satisfying the length invariant, a too-short
(but representable) name cannot be registered, so the call fails with
`NotFound`. -/
theorem transfer_to_short_name_not_found
    (cfg : Config) (st : State) (sender : Account) (name : Name)
    (to_ : Account)
    (hwf : State.wf cfg st)
    (hshort : name.length < cfg.minLength)
    (hmax : name.length ≤ cfg.maxLength) :
    transfer_to cfg st sender name to_ = Except.error Error.NotFound ∧
    (∀ name2 to2, transfer_to cfg st sender name2 to2
      ≠ Except.error Error.TooShort) := by
  constructor
  · have hnone : ansGet st.ansOf name = none := by
      cases hg : ansGet st.ansOf name with
      | none => rfl
      | some a =>
        obtain ⟨h1, _⟩ := hwf _ (ansGet_mem hg)
        have h2 : cfg.minLength ≤ name.length := h1
        omega
    have h1 : ¬ name.length > cfg.maxLength := by omega
    simp [transfer_to, h1, hnone]
  · intro name2 to2 h
    unfold transfer_to at h
    split at h
    · simp at h
    · split at h
      · split at h
        · simp at h
        · simp at h
      · simp at h

/-- Closed instance of C10 at a concrete state. -/
theorem transfer_to_short_name_not_found_instance :
    State.wf cfg0 stA ∧
    ([1] : Name).length < cfg0.minLength ∧
    ([1] : Name).length ≤ cfg0.maxLength ∧
    (transfer_to cfg0 stA 2 [1] 7 = Except.error Error.NotFound ∧
    ∀ name2 to2, transfer_to cfg0 stA 2 name2 to2
      ≠ Except.error Error.TooShort) :=
  ⟨by decide, by decide, by decide,
    transfer_to_short_name_not_found cfg0 stA 2 [1] 7
      (by decide) (by decide) (by decide)⟩
